import Mathlib

/-!
Shallow embedding of the prompt-analysis and planning layer of the
AI_DevTeam repository (`planner.py` together with the shared data types of
`agents/types.py`), plus theorems settling the specification claims about it.

Strings are handled as `List Char`; Python's `str.lower` is modelled by
`Char.toLower` (identical on ASCII, which is all the keyword tables use),
and Python's substring operator `in` by `isSubstr`.
-/

namespace AIDevTeam

/-- The `TechStack` enum from `agents/types.py`. -/
inductive TechStack where
  | REACT
  | FASTAPI
  | FLASK
  | DJANGO
  | NODEJS
  | VUE
  | ANGULAR
  | POSTGRESQL
  | MONGODB
  | MYSQL
  | SQLITE
  | FLUTTER
deriving DecidableEq, Repr

/-- The `.value` string of each `TechStack` member. -/
def TechStack.value : TechStack → String
  | .REACT => "react"
  | .FASTAPI => "fastapi"
  | .FLASK => "flask"
  | .DJANGO => "django"
  | .NODEJS => "nodejs"
  | .VUE => "vue"
  | .ANGULAR => "angular"
  | .POSTGRESQL => "postgresql"
  | .MONGODB => "mongodb"
  | .MYSQL => "mysql"
  | .SQLITE => "sqlite"
  | .FLUTTER => "flutter"

/-- Python's `needle in haystack` on strings: contiguous-substring test. -/
def isSubstr (needle : List Char) : List Char → Bool
  | [] => needle.isEmpty
  | c :: t => needle.isPrefixOf (c :: t) || isSubstr needle t

/-- Python's `prompt.lower()` (ASCII case folding, which covers every keyword
in the tables). -/
def pyLower (s : String) : List Char := s.data.map Char.toLower

/-- Table `PromptAnalyzer.tech_keywords` (insertion order of the Python dict). -/
def techKeywords : List (String × TechStack) :=
  [ ("react", .REACT)
  , ("vue", .VUE)
  , ("angular", .ANGULAR)
  , ("flutter", .FLUTTER)
  , ("fastapi", .FASTAPI)
  , ("flask", .FLASK)
  , ("django", .DJANGO)
  , ("nodejs", .NODEJS)
  , ("node.js", .NODEJS)
  , ("postgresql", .POSTGRESQL)
  , ("postgres", .POSTGRESQL)
  , ("mongodb", .MONGODB)
  , ("mongo", .MONGODB)
  , ("mysql", .MYSQL)
  , ("sqlite", .SQLITE) ]

/-- Table `PromptAnalyzer.integration_keywords` (insertion order). -/
def integrationKeywords : List (String × String) :=
  [ ("stripe", "payment")
  , ("paypal", "payment")
  , ("firebase", "backend_service")
  , ("supabase", "backend_service")
  , ("auth0", "authentication")
  , ("oauth", "authentication")
  , ("google", "authentication")
  , ("github", "authentication")
  , ("sendgrid", "email")
  , ("mailgun", "email")
  , ("twilio", "sms")
  , ("aws", "cloud")
  , ("azure", "cloud")
  , ("gcp", "cloud")
  , ("docker", "containerization")
  , ("kubernetes", "orchestration") ]

/-- Table `PromptAnalyzer.feature_keywords` (insertion order). -/
def featureKeywords : List (String × List String) :=
  [ ("user", ["authentication", "user_management"])
  , ("login", ["authentication"])
  , ("register", ["authentication", "user_management"])
  , ("dashboard", ["frontend", "analytics"])
  , ("admin", ["admin_panel", "user_management"])
  , ("chat", ["real_time", "messaging"])
  , ("message", ["messaging"])
  , ("notification", ["real_time", "messaging"])
  , ("file", ["file_upload", "storage"])
  , ("image", ["file_upload", "storage"])
  , ("upload", ["file_upload", "storage"])
  , ("payment", ["payment_processing"])
  , ("cart", ["e_commerce", "shopping"])
  , ("shop", ["e_commerce", "shopping"])
  , ("product", ["e_commerce", "catalog"])
  , ("search", ["search_functionality"])
  , ("filter", ["search_functionality"])
  , ("api", ["backend", "rest_api"])
  , ("database", ["database", "data_storage"])
  , ("real-time", ["real_time", "websockets"])
  , ("responsive", ["responsive_design"])
  , ("mobile", ["responsive_design", "mobile_app"]) ]

/-! ### The `tech_stack` dict

Python dict with string keys and `TechStack` values, modelled as an
association list: assignment updates in place when the key exists and
appends otherwise, exactly like CPython's insertion-ordered dict. -/

abbrev TechDict := List (String × TechStack)

/-- Membership `k in d` on a Python dict. -/
def hasKey (d : TechDict) (k : String) : Bool := d.any (fun p => p.1 == k)

/-- Assignment `d[k] = v` on a Python dict. -/
def dictSet (d : TechDict) (k : String) (v : TechStack) : TechDict :=
  if hasKey d k then
    d.map (fun p => if p.1 == k then (k, v) else p)
  else
    d ++ [(k, v)]

/-- Lookup `d[k]` (as an `Option`, `none` when the key would raise `KeyError`). -/
def dictGet (d : TechDict) (k : String) : Option TechStack :=
  (d.find? (fun p => p.1 == k)).map (·.2)

/-- The key list of the dict, in insertion order. -/
def keysOf (d : TechDict) : List String := d.map (·.1)

/-- The layer a technology is assigned to in `analyze_prompt`
(lines 109-114: the three `tech.value in [...]` branches; no branch
matches nothing, but the fall-through is kept for faithfulness). -/
def techLayer (t : TechStack) : Option String :=
  if ["react", "vue", "angular", "flutter"].contains t.value then
    some "frontend"
  else if ["fastapi", "flask", "django", "nodejs"].contains t.value then
    some "backend"
  else if ["postgresql", "mongodb", "mysql", "sqlite"].contains t.value then
    some "database"
  else
    none

/-- One iteration of the tech-stack extraction loop of `analyze_prompt`. -/
def techStep (pl : List Char) (d : TechDict) (kv : String × TechStack) : TechDict :=
  if isSubstr kv.1.data pl then
    match techLayer kv.2 with
    | some l => dictSet d l kv.2
    | none => d
  else d

/-- The tech-stack extraction loop of `analyze_prompt` (lines 106-114). -/
def extractTechStack (pl : List Char) : TechDict :=
  techKeywords.foldl (techStep pl) []

/-- The keywords of the tech table that are assigned to layer `l`
(for `l = "frontend"` these are react, vue, angular, flutter). -/
def layerKeywords (l : String) : List String :=
  (techKeywords.filter (fun kv => techLayer kv.2 == some l)).map (·.1)

/-- Line 117-118: `if 'frontend' not in tech_stack: tech_stack['frontend'] = REACT`. -/
def withDefaultFe (d : TechDict) : TechDict :=
  if hasKey d "frontend" then d else dictSet d "frontend" .REACT

/-- Line 119-120: the backend default. -/
def withDefaultBe (d : TechDict) : TechDict :=
  if hasKey d "backend" then d else dictSet d "backend" .FASTAPI

/-- Line 121-122: the database default. -/
def withDefaultDb (d : TechDict) : TechDict :=
  if hasKey d "database" then d else dictSet d "database" .POSTGRESQL

/-- The default-filling of `analyze_prompt` (lines 117-122), in program order. -/
def withDefaults (d : TechDict) : TechDict :=
  withDefaultDb (withDefaultBe (withDefaultFe d))

/-- The integration extraction loop of `analyze_prompt` (lines 125-128):
a plain list append per matching keyword. -/
def extractIntegrations (pl : List Char) : List String :=
  integrationKeywords.foldl
    (fun acc kv => if isSubstr kv.1.data pl then acc ++ [kv.2] else acc) []

/-- The feature extraction loop of `analyze_prompt` (lines 131-134).
The Python `set` is modelled as the deduplicated accumulation list:
membership and cardinality agree with the set. -/
def extractFeatures (pl : List Char) : List String :=
  (featureKeywords.foldl
    (fun acc kv => if isSubstr kv.1.data pl then acc ++ kv.2 else acc) []).dedup

/-! ### Project type -/

def ecommerceKeywords : List String := ["e-commerce", "shop", "store", "cart"]

def socialKeywords : List String := ["social", "chat", "message", "social media"]

def taskKeywords : List String := ["task", "project", "todo", "management"]

def contentKeywords : List String := ["blog", "cms", "content"]

def financeKeywords : List String := ["finance", "budget", "expense"]

def educationKeywords : List String := ["education", "learning", "course"]

/-- Python `any(keyword in prompt for keyword in kws)`. -/
def anyKw (kws : List String) (pl : List Char) : Bool :=
  kws.any (fun k => isSubstr k.data pl)

/-- Method `PromptAnalyzer._determine_project_type` (the `features` argument of the
Python method is unused there and dropped here). -/
def determineProjectType (pl : List Char) : String :=
  if anyKw ecommerceKeywords pl then "e_commerce"
  else if anyKw socialKeywords pl then "social_media"
  else if anyKw taskKeywords pl then "project_management"
  else if anyKw contentKeywords pl then "content_management"
  else if anyKw financeKeywords pl then "finance"
  else if anyKw educationKeywords pl then "education"
  else "web_application"

/-! ### Complexity -/

/-- Method `PromptAnalyzer._estimate_complexity`:
`min(int(3 + 0.5*len(features) + 1.5*len(integrations)), 10)`.
All intermediate floats are halves of small integers, so the float
arithmetic is exact and `int` truncation is floor division by 2. -/
def estimateComplexity (features integrations : List String) : Nat :=
  min ((6 + features.length + 3 * integrations.length) / 2) 10

/-- The complexity formula as the spec words it, for comparison with the
code's: truncation of `3 + 0.5*featureCount + 1.5*distinctIntegrationCount`
clamped at 10, where the integration count is the number of DISTINCT
matched categories. -/
def specClaimedComplexity (featureCount distinctIntegrationCount : Nat) : Nat :=
  min ((6 + featureCount + 3 * distinctIntegrationCount) / 2) 10

/-! ### Project name extraction

`_extract_project_name` runs `re.search` with the three patterns
`(create|build|develop)\s+a\s+([a-zA-Z\s]+)\s+(?:app|system|platform|website)`
on the lower-cased prompt. A small backtracking matcher, faithful to
Python's leftmost-position / greedy-with-backtracking semantics for the
constructs these patterns use, is embedded below. -/

/-- Python's `\s` class (ASCII part, all the inputs here use). -/
def isWS (c : Char) : Bool :=
  c = ' ' || c = '\t' || c = '\n' || c = '\x0d' || c = '\x0b' || c = '\x0c'

/-- The character class `[a-zA-Z]`. -/
def isAlphaAZ (c : Char) : Bool :=
  ('a' ≤ c && c ≤ 'z') || ('A' ≤ c && c ≤ 'Z')

/-- The character class `[a-zA-Z\s]` of the capture group. -/
def isNameChar (c : Char) : Bool := isAlphaAZ c || isWS c

/-- The regex pieces the three patterns are built from. -/
inductive RE where
  | lit : List Char → RE
  | plusCls : (Char → Bool) → RE
  | alt : List (List Char) → RE

/-- Length of the maximal leading run of characters satisfying `p`. -/
def runLen (p : Char → Bool) : List Char → Nat
  | [] => 0
  | c :: t => if p c then runLen p t + 1 else 0

/-- Try consumption lengths `j, j-1, ..., 1` (greedy, longest first). -/
def tryLens (f : Nat → Option α) : Nat → Option α
  | 0 => none
  | j + 1 => (f (j + 1)).orElse (fun _ => tryLens f j)

/-- Backtracking sequence matcher in continuation style: `matchSeq res s k`
matches `res` against a prefix of `s` and runs `k` on the rest, trying
greedy alternatives first exactly as Python's engine does. -/
def matchSeq : List RE → List Char → (List Char → Option α) → Option α
  | [], s, k => k s
  | .lit l :: rs, s, k =>
      if l.isPrefixOf s then matchSeq rs (s.drop l.length) k else none
  | .plusCls p :: rs, s, k =>
      tryLens (fun j => matchSeq rs (s.drop j) k) (runLen p s)
  | .alt ls :: rs, s, k =>
      ls.findSome? (fun l =>
        if l.isPrefixOf s then matchSeq rs (s.drop l.length) k else none)

/-- Match `pre ( group+ ) post` at the start of `s`, returning the greedy
capture of the group. -/
def matchCapAt (pre : List RE) (g : Char → Bool) (post : List RE)
    (s : List Char) : Option (List Char) :=
  matchSeq pre s (fun s1 =>
    tryLens (fun j => matchSeq post (s1.drop j) (fun _ => some (s1.take j)))
      (runLen g s1))

/-- Python `re.search`: try each start position left to right. -/
def searchCap (pre : List RE) (g : Char → Bool) (post : List RE) :
    List Char → Option (List Char)
  | [] => matchCapAt pre g post []
  | c :: t =>
      (matchCapAt pre g post (c :: t)).orElse (fun _ => searchCap pre g post t)

/-- The part of the pattern before the capture group: `verb\s+a\s+`. -/
def patternPre (verb : String) : List RE :=
  [.lit verb.data, .plusCls isWS, .lit ['a'], .plusCls isWS]

/-- The part after the capture group: `\s+(?:app|system|platform|website)`. -/
def patternPost : List RE :=
  [.plusCls isWS, .alt ["app".data, "system".data, "platform".data, "website".data]]

/-- Python's `str.strip()` (whitespace at both ends). -/
def stripWS (s : List Char) : List Char :=
  ((s.dropWhile isWS).reverse.dropWhile isWS).reverse

/-- Python `re.sub` of whitespace runs by underscore: each maximal whitespace run becomes one
underscore. `prevWS` records whether the previous character was whitespace. -/
def collapseWSAux : Bool → List Char → List Char
  | _, [] => []
  | prevWS, c :: t =>
      if isWS c then
        if prevWS then collapseWSAux true t else '_' :: collapseWSAux true t
      else c :: collapseWSAux false t

def collapseWS (s : List Char) : List Char := collapseWSAux false s

/-- The normalization of the captured group (strip, drop characters outside
`[a-zA-Z0-9\s]`, collapse whitespace runs to underscores). -/
def normalizeName (cap : List Char) : List Char :=
  collapseWS ((stripWS cap).filter (fun c => isAlphaAZ c || c.isDigit || isWS c))

/-- Method `PromptAnalyzer._extract_project_name` (lines 168-187). -/
def extractProjectName (prompt : String) : String :=
  let pl := pyLower prompt
  match ["create", "build", "develop"].findSome?
      (fun v => searchCap (patternPre v) isNameChar patternPost pl) with
  | some cap => ⟨normalizeName cap⟩
  | none => "generated_project"

/-! ### The analysis record and `analyze_prompt` -/

/-- The dict returned by `PromptAnalyzer.analyze_prompt`. -/
structure Analysis where
  project_name : String
  project_type : String
  tech_stack : TechDict
  integrations : List String
  features : List String
  complexity : Nat
deriving DecidableEq, Repr

/-- Method `PromptAnalyzer.analyze_prompt` (lines 101-149). -/
def analyzePrompt (prompt : String) : Analysis :=
  let pl := pyLower prompt
  let feats := extractFeatures pl
  let ints := extractIntegrations pl
  { project_name := extractProjectName prompt
  , project_type := determineProjectType pl
  , tech_stack := withDefaults (extractTechStack pl)
  , integrations := ints
  , features := feats
  , complexity := estimateComplexity feats ints }

/-! ### Plan builder (the parts the claims are about) -/

/-- The `FileType` enum from `planner.py`. -/
inductive FileType where
  | FRONTEND
  | BACKEND
  | DATABASE
  | INTEGRATION
  | CONFIG
  | DOCUMENTATION
deriving DecidableEq, Repr

/-- The `FileSpec` dataclass from `agents/types.py`, with the fields as
`planner.py` fills them. -/
structure FileSpec where
  path : String
  type : FileType
  agent : String
  dependencies : List String
  description : String
  priority : Nat
  tech_stack : Option TechStack
deriving DecidableEq, Repr

/-- The four React skeleton entries of `_generate_frontend_files`. -/
def reactBaseFiles (tech : TechStack) : List FileSpec :=
  [ { path := "frontend/src/App.jsx", type := .FRONTEND, agent := "frontend_agent"
    , dependencies := [], description := "Main React application component"
    , priority := 1, tech_stack := some tech }
  , { path := "frontend/src/components/Header.jsx", type := .FRONTEND
    , agent := "frontend_agent", dependencies := ["App.jsx"]
    , description := "Header component", priority := 2, tech_stack := some tech }
  , { path := "frontend/src/pages/Home.jsx", type := .FRONTEND
    , agent := "frontend_agent", dependencies := ["App.jsx"]
    , description := "Home page component", priority := 2, tech_stack := some tech }
  , { path := "frontend/package.json", type := .CONFIG, agent := "frontend_agent"
    , dependencies := [], description := "Frontend package configuration"
    , priority := 1, tech_stack := some tech } ]

/-- The Login/Register entries appended when `'authentication'` is among
the features. -/
def authFrontendFiles (tech : TechStack) : List FileSpec :=
  [ { path := "frontend/src/pages/Login.jsx", type := .FRONTEND
    , agent := "frontend_agent", dependencies := ["App.jsx"]
    , description := "Login page component", priority := 2, tech_stack := some tech }
  , { path := "frontend/src/pages/Register.jsx", type := .FRONTEND
    , agent := "frontend_agent", dependencies := ["App.jsx"]
    , description := "Registration page component", priority := 2
    , tech_stack := some tech } ]

/-- Method `ProjectPlanner._generate_frontend_files` (lines 239-307). The
`analysis['tech_stack']['frontend']` lookup always succeeds on the output
of `analyze_prompt` (see the tech-stack key theorems); `.getD .REACT`
stands in for the `KeyError` that never fires. -/
def generateFrontendFiles (a : Analysis) : List FileSpec :=
  let tech := (dictGet a.tech_stack "frontend").getD .REACT
  (if tech = .REACT then reactBaseFiles tech else []) ++
    (if a.features.contains "authentication" then authFrontendFiles tech else [])

/-- The payment integration entry of `_generate_integration_files`. -/
def paymentFile : FileSpec :=
  { path := "backend/integrations/payment.py", type := .INTEGRATION
  , agent := "integration_agent", dependencies := ["main.py"]
  , description := "Payment integration (Stripe/PayPal)", priority := 3
  , tech_stack := none }

/-- The OAuth integration entry of `_generate_integration_files`. -/
def oauthFile : FileSpec :=
  { path := "backend/integrations/oauth.py", type := .INTEGRATION
  , agent := "integration_agent", dependencies := ["main.py"]
  , description := "OAuth integration", priority := 3, tech_stack := none }

/-- Method `ProjectPlanner._generate_integration_files` (lines 384-412): one
entry appended per element of `analysis['integrations']` whose category
is `payment` or `authentication`. -/
def generateIntegrationFiles (a : Analysis) : List FileSpec :=
  a.integrations.foldl
    (fun files integration =>
      if integration = "payment" then files ++ [paymentFile]
      else if integration = "authentication" then files ++ [oauthFile]
      else files) []

/-! ### Dictionary lemmas -/

lemma bool_eq_of_iff {a b : Bool} (h : a = true ↔ b = true) : a = b := by
  cases a <;> cases b <;> simp_all

lemma keysOf_dictSet (d : TechDict) (k : String) (v : TechStack) :
    keysOf (dictSet d k v) = if hasKey d k then keysOf d else keysOf d ++ [k] := by
  unfold dictSet
  split
  · simp only [keysOf, List.map_map]
    refine List.map_congr_left fun p _ => ?_
    simp only [Function.comp_apply]
    by_cases h : p.1 = k
    · rw [if_pos (by simpa [beq_iff_eq] using h)]
      exact h.symm
    · rw [if_neg (by simpa [beq_iff_eq] using h)]
  · simp [keysOf]

lemma hasKey_iff_mem (d : TechDict) (k : String) :
    hasKey d k = true ↔ k ∈ keysOf d := by
  simp only [hasKey, keysOf, List.any_eq_true, List.mem_map, beq_iff_eq]

lemma find?_key_cons (q : String × TechStack) (t : TechDict) (k' : String) :
    List.find? (fun p => p.1 == k') (q :: t) =
      if q.1 = k' then some q else List.find? (fun p => p.1 == k') t := by
  by_cases h : q.1 = k'
  · rw [if_pos h]
    exact List.find?_cons_of_pos _ (by simpa [beq_iff_eq] using h)
  · rw [if_neg h]
    exact List.find?_cons_of_neg _ (by simpa [beq_iff_eq] using h)

lemma hasKey_dictSet (d : TechDict) (k : String) (v : TechStack) (k' : String) :
    hasKey (dictSet d k v) k' = ((k' == k) || hasKey d k') := by
  refine bool_eq_of_iff ?_
  rw [hasKey_iff_mem, keysOf_dictSet, Bool.or_eq_true, beq_iff_eq]
  by_cases hk : hasKey d k
  · rw [if_pos hk]
    constructor
    · intro hm
      exact Or.inr ((hasKey_iff_mem _ _).mpr hm)
    · rintro (he | hh)
      · subst he
        exact (hasKey_iff_mem _ _).mp hk
      · exact (hasKey_iff_mem _ _).mp hh
  · rw [if_neg hk]
    rw [List.mem_append, List.mem_singleton]
    rw [← hasKey_iff_mem]
    tauto

lemma find?_map_update (t : List (String × TechStack)) (k k' : String)
    (v : TechStack) (h : k ≠ k') :
    List.find? (fun p => p.1 == k')
        (t.map (fun p => if p.1 == k then (k, v) else p)) =
      List.find? (fun p => p.1 == k') t := by
  induction t with
  | nil => rfl
  | cons q r ih =>
    simp only [List.map_cons]
    rw [find?_key_cons, find?_key_cons]
    by_cases hq : q.1 = k
    · rw [show (if q.1 == k then (k, v) else q) = (k, v) from
        if_pos (by simpa [beq_iff_eq] using hq)]
      rw [if_neg (show ¬((k, v).1 = k') from h)]
      rw [if_neg (show ¬(q.1 = k') from hq ▸ h)]
      exact ih
    · rw [show (if q.1 == k then (k, v) else q) = q from
        if_neg (by simpa [beq_iff_eq] using hq)]
      by_cases hq' : q.1 = k'
      · rw [if_pos hq', if_pos hq']
      · rw [if_neg hq', if_neg hq']
        exact ih

lemma dictGet_dictSet (d : TechDict) (k : String) (v : TechStack) (k' : String) :
    dictGet (dictSet d k v) k' = if k' = k then some v else dictGet d k' := by
  unfold dictSet dictGet
  by_cases hk' : k' = k
  · subst hk'
    rw [if_pos rfl]
    split
    · rename_i hany
      unfold hasKey at hany
      rcases List.any_eq_true.mp hany with ⟨p, hp, hpk⟩
      induction d with
      | nil => simp at hp
      | cons q r ih =>
        simp only [List.map_cons]
        rw [find?_key_cons]
        by_cases hq : q.1 = k'
        · rw [show (if q.1 == k' then (k', v) else q) = (k', v) from
            if_pos (by simpa [beq_iff_eq] using hq)]
          rw [if_pos rfl]
          rfl
        · rw [show (if q.1 == k' then (k', v) else q) = q from
            if_neg (by simpa [beq_iff_eq] using hq)]
          rw [if_neg hq]
          rcases List.mem_cons.mp hp with he | hr
          · refine absurd ?_ hq
            have h2 : p.1 = k' := by simpa [beq_iff_eq] using hpk
            rw [← he]
            exact h2
          · exact ih (List.any_eq_true.mpr ⟨p, hr, hpk⟩) hr
    · rename_i hany
      induction d with
      | nil =>
        rw [List.nil_append, find?_key_cons, if_pos rfl]
        rfl
      | cons q r ih =>
        have hq : ¬(q.1 = k') := by
          intro h'
          exact hany (by unfold hasKey
                         simp [List.any_cons, beq_iff_eq, h'])
        rw [List.cons_append, find?_key_cons, if_neg hq]
        exact ih (by intro h'
                     unfold hasKey at h' hany
                     exact hany (by simp [List.any_cons, h']))
  · rw [if_neg hk']
    split
    · rw [find?_map_update _ _ _ _ (fun he => hk' he.symm)]
    · induction d with
      | nil =>
        rw [List.nil_append, find?_key_cons,
          if_neg (show ¬((k, v).1 = k') from fun he => hk' he.symm),
          List.find?_nil]
      | cons q r ih =>
        rename_i hany
        rw [List.cons_append, find?_key_cons, find?_key_cons]
        by_cases hq : q.1 = k'
        · rw [if_pos hq, if_pos hq]
        · rw [if_neg hq, if_neg hq]
          exact ih (by intro h'
                       unfold hasKey at h' hany
                       exact hany (by simp [List.any_cons, h']))

lemma dictGet_dictSet_self (d : TechDict) (k : String) (v : TechStack) :
    dictGet (dictSet d k v) k = some v := by
  rw [dictGet_dictSet, if_pos rfl]

lemma dictGet_dictSet_ne (d : TechDict) (k : String) (v : TechStack)
    (k' : String) (h : k' ≠ k) : dictGet (dictSet d k v) k' = dictGet d k' := by
  rw [dictGet_dictSet, if_neg h]

lemma hasKey_of_dictGet_some (d : TechDict) (k : String) (v : TechStack)
    (h : dictGet d k = some v) : hasKey d k = true := by
  unfold dictGet at h
  unfold hasKey
  rcases Option.map_eq_some'.mp h with ⟨p, hp, _⟩
  have hpred := List.find?_some (p := fun q : String × TechStack => q.1 == k) hp
  exact List.any_eq_true.mpr ⟨p, List.mem_of_find?_eq_some hp, hpred⟩

/-! ### Tech-stack extraction lemmas -/

lemma techLayer_cases (t : TechStack) :
    techLayer t = some "frontend" ∨ techLayer t = some "backend" ∨
      techLayer t = some "database" := by
  cases t <;> decide

lemma techLayer_mem_three (t : TechStack) (l : String)
    (h : techLayer t = some l) :
    l = "frontend" ∨ l = "backend" ∨ l = "database" := by
  rcases techLayer_cases t with h' | h' | h' <;>
    (rw [h'] at h; injection h with h; exact (by simp [← h]))

lemma techStep_hasKey_skip (pl : List Char) (d : TechDict)
    (kv : String × TechStack) (l : String)
    (h : techLayer kv.2 ≠ some l ∨ isSubstr kv.1.data pl = false) :
    hasKey (techStep pl d kv) l = hasKey d l := by
  unfold techStep
  by_cases hm : isSubstr kv.1.data pl = true
  · rw [if_pos hm]
    rcases h with h | h
    · cases hl : techLayer kv.2 with
      | none => rfl
      | some l' =>
        rw [hasKey_dictSet]
        have hne : ¬(l == l') := by
          intro he
          exact h (by rw [hl, eq_of_beq he])
        simp [hne]
    · rw [h] at hm
      simp at hm
  · rw [if_neg hm]

lemma foldl_techStep_hasKey (pl : List Char) (l : String) :
    ∀ (kws : List (String × TechStack)) (d : TechDict),
      (∀ kv ∈ kws, techLayer kv.2 ≠ some l ∨ isSubstr kv.1.data pl = false) →
      hasKey (kws.foldl (techStep pl) d) l = hasKey d l
  | [], _, _ => rfl
  | kv :: kws, d, h => by
      rw [List.foldl_cons,
        foldl_techStep_hasKey pl l kws _
          (fun kv' h' => h kv' (List.mem_cons_of_mem _ h')),
        techStep_hasKey_skip pl d kv l (h kv (List.mem_cons_self _ _))]

lemma techStep_dictGet_skip (pl : List Char) (d : TechDict)
    (kv : String × TechStack) (l : String)
    (h : techLayer kv.2 ≠ some l ∨ isSubstr kv.1.data pl = false) :
    dictGet (techStep pl d kv) l = dictGet d l := by
  unfold techStep
  by_cases hm : isSubstr kv.1.data pl = true
  · rw [if_pos hm]
    rcases h with h | h
    · cases hl : techLayer kv.2 with
      | none => rfl
      | some l' =>
        refine dictGet_dictSet_ne _ _ _ _ ?_
        intro he
        exact h (by rw [hl, he])
    · rw [h] at hm
      simp at hm
  · rw [if_neg hm]

lemma foldl_techStep_dictGet (pl : List Char) (l : String) :
    ∀ (kws : List (String × TechStack)) (d : TechDict),
      (∀ kv ∈ kws, techLayer kv.2 ≠ some l ∨ isSubstr kv.1.data pl = false) →
      dictGet (kws.foldl (techStep pl) d) l = dictGet d l
  | [], _, _ => rfl
  | kv :: kws, d, h => by
      rw [List.foldl_cons,
        foldl_techStep_dictGet pl l kws _
          (fun kv' h' => h kv' (List.mem_cons_of_mem _ h')),
        techStep_dictGet_skip pl d kv l (h kv (List.mem_cons_self _ _))]

/-- Invariant: the dict's keys are distinct and all drawn from the three
layer names. -/
def ValidKeys (d : TechDict) : Prop :=
  (keysOf d).Nodup ∧ ∀ k ∈ keysOf d, k = "frontend" ∨ k = "backend" ∨ k = "database"

lemma validKeys_dictSet (d : TechDict) (k : String) (v : TechStack)
    (hd : ValidKeys d) (hk : k = "frontend" ∨ k = "backend" ∨ k = "database") :
    ValidKeys (dictSet d k v) := by
  obtain ⟨hnd, hsub⟩ := hd
  unfold ValidKeys
  rw [keysOf_dictSet]
  by_cases h : hasKey d k = true
  · rw [if_pos h]
    exact ⟨hnd, hsub⟩
  · rw [if_neg h]
    constructor
    · rw [List.nodup_append]
      refine ⟨hnd, List.nodup_singleton _, ?_⟩
      intro a ha hb
      rw [List.mem_singleton] at hb
      subst hb
      exact h ((hasKey_iff_mem _ _).mpr ha)
    · intro k' hk'
      rcases List.mem_append.mp hk' with h1 | h1
      · exact hsub k' h1
      · rw [List.mem_singleton] at h1
        subst h1
        exact hk

lemma validKeys_techStep (pl : List Char) (d : TechDict)
    (kv : String × TechStack) (hd : ValidKeys d) :
    ValidKeys (techStep pl d kv) := by
  unfold techStep
  split
  · cases hl : techLayer kv.2 with
    | none => exact hd
    | some l => exact validKeys_dictSet _ _ _ hd (techLayer_mem_three _ _ hl)
  · exact hd

lemma validKeys_foldl (pl : List Char) :
    ∀ (kws : List (String × TechStack)) (d : TechDict),
      ValidKeys d → ValidKeys (kws.foldl (techStep pl) d)
  | [], _, hd => hd
  | kv :: kws, d, hd => by
      rw [List.foldl_cons]
      exact validKeys_foldl pl kws _ (validKeys_techStep pl d kv hd)

lemma validKeys_extract (pl : List Char) : ValidKeys (extractTechStack pl) :=
  validKeys_foldl pl techKeywords [] ⟨List.nodup_nil, by simp [keysOf]⟩

lemma hasKey_mono_dictSet (d : TechDict) (k : String) (v : TechStack)
    (l : String) (h : hasKey d l = true) : hasKey (dictSet d k v) l = true := by
  rw [hasKey_dictSet, h, Bool.or_true]

lemma validKeys_withDefaults (d : TechDict) (hd : ValidKeys d) :
    ValidKeys (withDefaults d) := by
  unfold withDefaults withDefaultDb withDefaultBe withDefaultFe
  split
  · split
    · split
      · exact hd
      · exact validKeys_dictSet _ _ _ hd (by simp)
    · split
      · exact validKeys_dictSet _ _ _ hd (by simp)
      · exact validKeys_dictSet _ _ _
          (validKeys_dictSet _ _ _ hd (by simp)) (by simp)
  · split
    · split
      · exact validKeys_dictSet _ _ _ hd (by simp)
      · exact validKeys_dictSet _ _ _
          (validKeys_dictSet _ _ _ hd (by simp)) (by simp)
    · split
      · exact validKeys_dictSet _ _ _
          (validKeys_dictSet _ _ _ hd (by simp)) (by simp)
      · exact validKeys_dictSet _ _ _
          (validKeys_dictSet _ _ _
            (validKeys_dictSet _ _ _ hd (by simp)) (by simp)) (by simp)

lemma hasKey_withDefaultFe_fe (d : TechDict) :
    hasKey (withDefaultFe d) "frontend" = true := by
  unfold withDefaultFe
  split
  · assumption
  · rw [hasKey_dictSet]
    simp

lemma hasKey_withDefaultBe_be (d : TechDict) :
    hasKey (withDefaultBe d) "backend" = true := by
  unfold withDefaultBe
  split
  · assumption
  · rw [hasKey_dictSet]
    simp

lemma hasKey_withDefaultDb_db (d : TechDict) :
    hasKey (withDefaultDb d) "database" = true := by
  unfold withDefaultDb
  split
  · assumption
  · rw [hasKey_dictSet]
    simp

lemma hasKey_withDefaultBe_mono (d : TechDict) (l : String)
    (h : hasKey d l = true) : hasKey (withDefaultBe d) l = true := by
  unfold withDefaultBe
  split
  · exact h
  · exact hasKey_mono_dictSet _ _ _ _ h

lemma hasKey_withDefaultDb_mono (d : TechDict) (l : String)
    (h : hasKey d l = true) : hasKey (withDefaultDb d) l = true := by
  unfold withDefaultDb
  split
  · exact h
  · exact hasKey_mono_dictSet _ _ _ _ h

lemma hasKey_withDefaults_all (d : TechDict) :
    hasKey (withDefaults d) "frontend" = true ∧
      hasKey (withDefaults d) "backend" = true ∧
      hasKey (withDefaults d) "database" = true :=
  ⟨hasKey_withDefaultDb_mono _ _
      (hasKey_withDefaultBe_mono _ _ (hasKey_withDefaultFe_fe d)),
    hasKey_withDefaultDb_mono _ _ (hasKey_withDefaultBe_be _),
    hasKey_withDefaultDb_db _⟩

lemma hasKey_withDefaultFe_other (d : TechDict) (l : String)
    (h : l ≠ "frontend") : hasKey (withDefaultFe d) l = hasKey d l := by
  unfold withDefaultFe
  split
  · rfl
  · rw [hasKey_dictSet]
    simp [h]

lemma dictGet_withDefaultFe_other (d : TechDict) (l : String)
    (h : l ≠ "frontend") : dictGet (withDefaultFe d) l = dictGet d l := by
  unfold withDefaultFe
  split
  · rfl
  · exact dictGet_dictSet_ne _ _ _ _ h

lemma dictGet_withDefaultBe_other (d : TechDict) (l : String)
    (h : l ≠ "backend") : dictGet (withDefaultBe d) l = dictGet d l := by
  unfold withDefaultBe
  split
  · rfl
  · exact dictGet_dictSet_ne _ _ _ _ h

lemma dictGet_withDefaultDb_other (d : TechDict) (l : String)
    (h : l ≠ "database") : dictGet (withDefaultDb d) l = dictGet d l := by
  unfold withDefaultDb
  split
  · rfl
  · exact dictGet_dictSet_ne _ _ _ _ h

lemma dictGet_withDefaults_fe (d : TechDict) :
    dictGet (withDefaults d) "frontend" =
      if hasKey d "frontend" then dictGet d "frontend" else some .REACT := by
  unfold withDefaults
  rw [dictGet_withDefaultDb_other _ _ (by decide),
    dictGet_withDefaultBe_other _ _ (by decide)]
  unfold withDefaultFe
  split
  · rfl
  · exact dictGet_dictSet_self _ _ _

lemma dictGet_withDefaults_be (d : TechDict) :
    dictGet (withDefaults d) "backend" =
      if hasKey d "backend" then dictGet d "backend" else some .FASTAPI := by
  unfold withDefaults
  rw [dictGet_withDefaultDb_other _ _ (by decide)]
  have hkey : hasKey (withDefaultFe d) "backend" = hasKey d "backend" :=
    hasKey_withDefaultFe_other _ _ (by decide)
  unfold withDefaultBe
  split
  · rename_i h
    rw [hkey] at h
    rw [if_pos h]
    exact dictGet_withDefaultFe_other _ _ (by decide)
  · rename_i h
    rw [hkey] at h
    rw [if_neg h, dictGet_dictSet_self]

lemma hasKey_withDefaultBe_other (d : TechDict) (l : String)
    (h : l ≠ "backend") : hasKey (withDefaultBe d) l = hasKey d l := by
  unfold withDefaultBe
  split
  · rfl
  · rw [hasKey_dictSet]
    simp [h]

lemma dictGet_withDefaults_db (d : TechDict) :
    dictGet (withDefaults d) "database" =
      if hasKey d "database" then dictGet d "database" else some .POSTGRESQL := by
  unfold withDefaults
  have hkey : hasKey (withDefaultBe (withDefaultFe d)) "database" = hasKey d "database" := by
    rw [hasKey_withDefaultBe_other _ _ (by decide),
      hasKey_withDefaultFe_other _ _ (by decide)]
  unfold withDefaultDb
  split
  · rename_i h
    rw [hkey] at h
    rw [if_pos h]
    rw [dictGet_withDefaultBe_other _ _ (by decide),
      dictGet_withDefaultFe_other _ _ (by decide)]
  · rename_i h
    rw [hkey] at h
    rw [if_neg h, dictGet_dictSet_self]

/-! ### Substring, feature and integration lemmas -/

lemma isSubstr_iff (n : List Char) (h : List Char) :
    isSubstr n h = true ↔ n <:+: h := by
  induction h with
  | nil => simp [isSubstr, List.isEmpty_iff, List.infix_nil]
  | cons c t ih =>
    simp [isSubstr, ih, List.isPrefixOf_iff_prefix, List.infix_cons_iff]

lemma isSubstr_trans {a b c : List Char} (h1 : isSubstr a b = true)
    (h2 : isSubstr b c = true) : isSubstr a c = true := by
  rw [isSubstr_iff] at h1 h2 ⊢
  exact h1.trans h2

lemma hasKey_extract_of_no_layer_kw (pl : List Char) (l : String)
    (h : ∀ kw ∈ layerKeywords l, isSubstr kw.data pl = false) :
    hasKey (extractTechStack pl) l = false := by
  unfold extractTechStack
  have hcond : ∀ kv ∈ techKeywords,
      techLayer kv.2 ≠ some l ∨ isSubstr kv.1.data pl = false := by
    intro kv hkv
    by_cases hl : techLayer kv.2 = some l
    · right
      refine h kv.1 ?_
      unfold layerKeywords
      exact List.mem_map.mpr ⟨kv, List.mem_filter.mpr ⟨hkv, by simp [hl]⟩, rfl⟩
    · left
      exact hl
  rw [foldl_techStep_hasKey pl l techKeywords [] hcond]
  rfl

lemma mem_featFold_acc (pl : List Char) :
    ∀ (kws : List (String × List String)) (acc : List String) (t : String),
      t ∈ acc →
      t ∈ kws.foldl
        (fun acc kv => if isSubstr kv.1.data pl then acc ++ kv.2 else acc) acc
  | [], _, _, ht => ht
  | _ :: kws, acc, t, ht => by
      rw [List.foldl_cons]
      refine mem_featFold_acc pl kws _ t ?_
      split
      · exact List.mem_append_left _ ht
      · exact ht

lemma mem_featFold (pl : List Char) :
    ∀ (kws : List (String × List String)) (acc : List String)
      (kv : String × List String), kv ∈ kws → isSubstr kv.1.data pl = true →
      ∀ t ∈ kv.2,
        t ∈ kws.foldl
          (fun acc kv => if isSubstr kv.1.data pl then acc ++ kv.2 else acc) acc
  | [], _, _, hkv, _, _, _ => absurd hkv (List.not_mem_nil _)
  | kv' :: kws, acc, kv, hkv, hm, t, ht => by
      rw [List.foldl_cons]
      rcases List.mem_cons.mp hkv with he | hr
      · subst he
        refine mem_featFold_acc pl kws _ t ?_
        rw [if_pos hm]
        exact List.mem_append_right _ ht
      · exact mem_featFold pl kws _ kv hr hm t ht

lemma mem_extractFeatures (pl : List Char) (kv : String × List String)
    (hkv : kv ∈ featureKeywords) (hm : isSubstr kv.1.data pl = true)
    (t : String) (ht : t ∈ kv.2) : t ∈ extractFeatures pl := by
  unfold extractFeatures
  exact List.mem_dedup.mpr (mem_featFold pl featureKeywords [] kv hkv hm t ht)

lemma extractIntegrations_eq (pl : List Char) :
    extractIntegrations pl =
      (integrationKeywords.filter (fun kv => isSubstr kv.1.data pl)).map (·.2) := by
  unfold extractIntegrations
  suffices h : ∀ (kws : List (String × String)) (acc : List String),
      kws.foldl (fun acc kv => if isSubstr kv.1.data pl then acc ++ [kv.2] else acc) acc
        = acc ++ (kws.filter (fun kv => isSubstr kv.1.data pl)).map (·.2) by
    simpa using h integrationKeywords []
  intro kws
  induction kws with
  | nil => simp
  | cons kv kws ih =>
    intro acc
    rw [List.foldl_cons, List.filter_cons]
    by_cases hm : isSubstr kv.1.data pl = true
    · rw [if_pos hm, ih, if_pos hm]
      simp
    · rw [if_neg hm, ih, if_neg hm]

lemma genIntFiles_length (a : Analysis) :
    (generateIntegrationFiles a).length =
      a.integrations.countP (fun i => i == "payment" || i == "authentication") := by
  unfold generateIntegrationFiles
  suffices h : ∀ (ints : List String) (acc : List FileSpec),
      (ints.foldl (fun files integration =>
          if integration = "payment" then files ++ [paymentFile]
          else if integration = "authentication" then files ++ [oauthFile]
          else files) acc).length =
        acc.length + ints.countP (fun i => i == "payment" || i == "authentication") by
    simpa using h a.integrations []
  intro ints
  induction ints with
  | nil => simp
  | cons i ints ih =>
    intro acc
    rw [List.foldl_cons, List.countP_cons]
    by_cases h1 : i = "payment"
    · subst h1
      rw [if_pos rfl, ih]
      simp [List.length_append]
      omega
    · by_cases h2 : i = "authentication"
      · subst h2
        rw [if_neg h1, if_pos rfl, ih]
        simp [List.length_append]
        omega
      · rw [if_neg h1, if_neg h2, ih]
        have : (i == "payment" || i == "authentication") = false := by
          simp [h1, h2]
        rw [this]
        simp

lemma techStep_matched (pl : List Char) (d : TechDict) (kv : String × TechStack)
    (l : String) (hm : isSubstr kv.1.data pl = true) (hl : techLayer kv.2 = some l) :
    techStep pl d kv = dictSet d l kv.2 := by
  unfold techStep
  rw [if_pos hm, hl]

lemma techStep_unmatched (pl : List Char) (d : TechDict) (kv : String × TechStack)
    (hm : isSubstr kv.1.data pl = false) : techStep pl d kv = d := by
  unfold techStep
  rw [if_neg (by simp [hm])]

/-! ## The claims -/

/-- C1: for every prompt, the `tech_stack` mapping returned by
`analyze_prompt` contains exactly the three keys frontend, backend and
database (all present, no other key, no duplicate key; each value is a
`TechStack` member by typing), and a layer none of whose technology
keywords occurs as a substring of the lower-cased prompt is filled with
its fixed default (REACT / FASTAPI / POSTGRESQL). -/
theorem c1_tech_stack_keys_and_defaults (p : String) :
    (hasKey (analyzePrompt p).tech_stack "frontend" = true ∧
     hasKey (analyzePrompt p).tech_stack "backend" = true ∧
     hasKey (analyzePrompt p).tech_stack "database" = true) ∧
    (∀ k ∈ keysOf (analyzePrompt p).tech_stack,
       k = "frontend" ∨ k = "backend" ∨ k = "database") ∧
    (keysOf (analyzePrompt p).tech_stack).Nodup ∧
    ((∀ kw ∈ layerKeywords "frontend", isSubstr kw.data (pyLower p) = false) →
       dictGet (analyzePrompt p).tech_stack "frontend" = some TechStack.REACT) ∧
    ((∀ kw ∈ layerKeywords "backend", isSubstr kw.data (pyLower p) = false) →
       dictGet (analyzePrompt p).tech_stack "backend" = some TechStack.FASTAPI) ∧
    ((∀ kw ∈ layerKeywords "database", isSubstr kw.data (pyLower p) = false) →
       dictGet (analyzePrompt p).tech_stack "database" = some TechStack.POSTGRESQL) := by
  have hts : (analyzePrompt p).tech_stack
      = withDefaults (extractTechStack (pyLower p)) := rfl
  have hvalid : ValidKeys (withDefaults (extractTechStack (pyLower p))) :=
    validKeys_withDefaults _ (validKeys_extract _)
  refine ⟨?_, ?_, ?_, ?_, ?_, ?_⟩
  · rw [hts]
    exact hasKey_withDefaults_all _
  · rw [hts]
    exact hvalid.2
  · rw [hts]
    exact hvalid.1
  · intro h
    have hf := hasKey_extract_of_no_layer_kw (pyLower p) "frontend" h
    rw [hts, dictGet_withDefaults_fe, hf]
    simp
  · intro h
    have hf := hasKey_extract_of_no_layer_kw (pyLower p) "backend" h
    rw [hts, dictGet_withDefaults_be, hf]
    simp
  · intro h
    have hf := hasKey_extract_of_no_layer_kw (pyLower p) "database" h
    rw [hts, dictGet_withDefaults_db, hf]
    simp

/-- Witness for C1 at the empty prompt: no layer keyword matches, so all
three defaults are returned. -/
theorem c1_witness :
    dictGet (analyzePrompt "").tech_stack "frontend" = some TechStack.REACT ∧
    dictGet (analyzePrompt "").tech_stack "backend" = some TechStack.FASTAPI ∧
    dictGet (analyzePrompt "").tech_stack "database" = some TechStack.POSTGRESQL :=
  ⟨(c1_tech_stack_keys_and_defaults "").2.2.2.1 (by decide),
   (c1_tech_stack_keys_and_defaults "").2.2.2.2.1 (by decide),
   (c1_tech_stack_keys_and_defaults "").2.2.2.2.2 (by decide)⟩

/-- C2: for every prompt the complexity returned by `analyze_prompt` lies
in [1, 10] (it is in fact at least 3, since the base term is 3 and the
feature/integration terms are non-negative, and clamped above at 10). -/
theorem c2_complexity_bounds (p : String) :
    1 ≤ (analyzePrompt p).complexity ∧ (analyzePrompt p).complexity ≤ 10 := by
  show 1 ≤ estimateComplexity (extractFeatures (pyLower p))
        (extractIntegrations (pyLower p)) ∧
      estimateComplexity (extractFeatures (pyLower p))
        (extractIntegrations (pyLower p)) ≤ 10
  unfold estimateComplexity
  omega

/-- C3 counterexample: a prompt containing both 'stripe' and 'paypal'.
The integrations list holds the 'payment' category TWICE (it is a plain
list append per matched keyword, not a set), and the plan builder emits
TWO payment FileSpecs, not one per distinct category. -/
theorem c3_counterexample :
    (analyzePrompt "stripe paypal").integrations = ["payment", "payment"] ∧
    ¬(analyzePrompt "stripe paypal").integrations.Nodup ∧
    (analyzePrompt "stripe paypal").integrations.dedup = ["payment"] ∧
    (generateIntegrationFiles (analyzePrompt "stripe paypal")).length = 2 ∧
    generateIntegrationFiles (analyzePrompt "stripe paypal")
      = [paymentFile, paymentFile] := by
  decide

/-- C3 as amended: the integrations collection is a LIST holding one
category entry per matched integration keyword, in table order, so it may
contain duplicate category tags; the plan builder emits one FileSpec per
list entry whose category is payment or authentication (hence one per
keyword occurrence, not one per distinct category). -/
theorem c3_amended_integration_multiplicity (p : String) :
    (analyzePrompt p).integrations =
      (integrationKeywords.filter
        (fun kv => isSubstr kv.1.data (pyLower p))).map (·.2) ∧
    (generateIntegrationFiles (analyzePrompt p)).length =
      (analyzePrompt p).integrations.countP
        (fun i => i == "payment" || i == "authentication") := by
  constructor
  · show extractIntegrations (pyLower p) = _
    exact extractIntegrations_eq _
  · exact genIntFiles_length _

/-- C4 counterexample: prompt "vue login". The resolved frontend is VUE
(not REACT), yet the frontend file-generation step still contributes the
Login/Register FileSpecs, because the authentication block of
`_generate_frontend_files` is outside the REACT branch. -/
theorem c4_counterexample :
    dictGet (analyzePrompt "vue login").tech_stack "frontend"
      = some TechStack.VUE ∧
    TechStack.VUE ≠ TechStack.REACT ∧
    generateFrontendFiles (analyzePrompt "vue login")
      = authFrontendFiles TechStack.VUE ∧
    authFrontendFiles TechStack.VUE ≠ [] := by
  decide

/-- C4 as amended: when the resolved frontend technology is not REACT the
frontend step contributes no app-shell / header / home / package entries,
but it still appends the Login/Register pages whenever 'authentication'
is among the features; only with no authentication feature does it
contribute nothing. -/
theorem c4_amended_frontend_files (p : String) (t : TechStack)
    (hget : dictGet (analyzePrompt p).tech_stack "frontend" = some t)
    (hne : t ≠ TechStack.REACT) :
    generateFrontendFiles (analyzePrompt p) =
      if (analyzePrompt p).features.contains "authentication"
      then authFrontendFiles t else [] := by
  simp [generateFrontendFiles, hget, hne]

/-- Witness for C4 at "vue login" (frontend VUE, authentication present). -/
theorem c4_witness :
    generateFrontendFiles (analyzePrompt "vue login") =
      (if (analyzePrompt "vue login").features.contains "authentication"
       then authFrontendFiles TechStack.VUE else []) :=
  c4_amended_frontend_files "vue login" TechStack.VUE (by decide) (by decide)

/-- C5 counterexample: prompt "stripe paypal" matches no feature keyword
and exactly one DISTINCT integration category (payment), so the claimed
formula with distinct categories gives 4, but the code computes 6: its
`len(integrations)` counts keyword occurrences, not distinct categories. -/
theorem c5_counterexample :
    (analyzePrompt "stripe paypal").complexity = 6 ∧
    (analyzePrompt "stripe paypal").features.length = 0 ∧
    (analyzePrompt "stripe paypal").integrations.dedup.length = 1 ∧
    specClaimedComplexity 0 1 = 4 ∧
    (6 : Nat) ≠ 4 := by
  decide

/-- C5 as amended: the complexity equals the truncation of
`3 + 0.5*|features| + 1.5*n` clamped at 10, where `n` is the LENGTH of the
integrations list (one entry per matched keyword, duplicates included),
not the number of distinct categories. -/
theorem c5_amended_complexity_formula (p : String) :
    (analyzePrompt p).complexity =
      min ((6 + (analyzePrompt p).features.length
        + 3 * (analyzePrompt p).integrations.length) / 2) 10 := rfl

/-- C6: project type is decided by testing the lower-cased prompt against
the fixed keyword groups in priority order (e-commerce, social, task,
content, finance, education), first group with a substring match winning,
with 'web_application' as the default; in particular any prompt containing
'store' (for example one also containing 'chat') classifies as e_commerce. -/
theorem c6_project_type_priority (p : String) :
    ((anyKw ecommerceKeywords (pyLower p) = true →
        (analyzePrompt p).project_type = "e_commerce") ∧
     (anyKw ecommerceKeywords (pyLower p) = false →
      anyKw socialKeywords (pyLower p) = true →
        (analyzePrompt p).project_type = "social_media") ∧
     (anyKw ecommerceKeywords (pyLower p) = false →
      anyKw socialKeywords (pyLower p) = false →
      anyKw taskKeywords (pyLower p) = true →
        (analyzePrompt p).project_type = "project_management") ∧
     (anyKw ecommerceKeywords (pyLower p) = false →
      anyKw socialKeywords (pyLower p) = false →
      anyKw taskKeywords (pyLower p) = false →
      anyKw contentKeywords (pyLower p) = true →
        (analyzePrompt p).project_type = "content_management") ∧
     (anyKw ecommerceKeywords (pyLower p) = false →
      anyKw socialKeywords (pyLower p) = false →
      anyKw taskKeywords (pyLower p) = false →
      anyKw contentKeywords (pyLower p) = false →
      anyKw financeKeywords (pyLower p) = true →
        (analyzePrompt p).project_type = "finance") ∧
     (anyKw ecommerceKeywords (pyLower p) = false →
      anyKw socialKeywords (pyLower p) = false →
      anyKw taskKeywords (pyLower p) = false →
      anyKw contentKeywords (pyLower p) = false →
      anyKw financeKeywords (pyLower p) = false →
      anyKw educationKeywords (pyLower p) = true →
        (analyzePrompt p).project_type = "education") ∧
     (anyKw ecommerceKeywords (pyLower p) = false →
      anyKw socialKeywords (pyLower p) = false →
      anyKw taskKeywords (pyLower p) = false →
      anyKw contentKeywords (pyLower p) = false →
      anyKw financeKeywords (pyLower p) = false →
      anyKw educationKeywords (pyLower p) = false →
        (analyzePrompt p).project_type = "web_application")) ∧
    (isSubstr "store".data (pyLower p) = true →
      (analyzePrompt p).project_type = "e_commerce") := by
  have hdet : (analyzePrompt p).project_type
      = determineProjectType (pyLower p) := rfl
  constructor
  · refine ⟨?_, ?_, ?_, ?_, ?_, ?_, ?_⟩
    · intro h1
      rw [hdet]
      unfold determineProjectType
      rw [if_pos h1]
    · intro h1 h2
      rw [hdet]
      unfold determineProjectType
      rw [if_neg (by simp [h1]), if_pos h2]
    · intro h1 h2 h3
      rw [hdet]
      unfold determineProjectType
      rw [if_neg (by simp [h1]), if_neg (by simp [h2]), if_pos h3]
    · intro h1 h2 h3 h4
      rw [hdet]
      unfold determineProjectType
      rw [if_neg (by simp [h1]), if_neg (by simp [h2]), if_neg (by simp [h3]),
        if_pos h4]
    · intro h1 h2 h3 h4 h5
      rw [hdet]
      unfold determineProjectType
      rw [if_neg (by simp [h1]), if_neg (by simp [h2]), if_neg (by simp [h3]),
        if_neg (by simp [h4]), if_pos h5]
    · intro h1 h2 h3 h4 h5 h6
      rw [hdet]
      unfold determineProjectType
      rw [if_neg (by simp [h1]), if_neg (by simp [h2]), if_neg (by simp [h3]),
        if_neg (by simp [h4]), if_neg (by simp [h5]), if_pos h6]
    · intro h1 h2 h3 h4 h5 h6
      rw [hdet]
      unfold determineProjectType
      rw [if_neg (by simp [h1]), if_neg (by simp [h2]), if_neg (by simp [h3]),
        if_neg (by simp [h4]), if_neg (by simp [h5]), if_neg (by simp [h6])]
  · intro hs
    have he : anyKw ecommerceKeywords (pyLower p) = true :=
      List.any_eq_true.mpr ⟨"store", by decide, hs⟩
    rw [hdet]
    unfold determineProjectType
    rw [if_pos he]

/-- Witness for C6 at "store chat": the e-commerce group matches (via
'store'), so the type is e_commerce even though 'chat' also matches the
social group checked later. -/
theorem c6_witness : (analyzePrompt "store chat").project_type = "e_commerce" :=
  (c6_project_type_priority "store chat").2 (by decide)

/-- C7: `analyze_prompt` on the empty string returns the full default
stack, empty integrations and features, type web_application, complexity
3 and the fallback name. -/
theorem c7_empty_prompt :
    (analyzePrompt "").project_name = "generated_project" ∧
    (analyzePrompt "").project_type = "web_application" ∧
    dictGet (analyzePrompt "").tech_stack "frontend" = some TechStack.REACT ∧
    dictGet (analyzePrompt "").tech_stack "backend" = some TechStack.FASTAPI ∧
    dictGet (analyzePrompt "").tech_stack "database" = some TechStack.POSTGRESQL ∧
    (analyzePrompt "").integrations = [] ∧
    (analyzePrompt "").features = [] ∧
    (analyzePrompt "").complexity = 3 := by
  decide

/-- C8: `analyze_prompt` on "Create a recipe sharing app" extracts the
regex capture between 'create a' and 'app', normalized to snake case,
giving project_name "recipe_sharing", and classifies the project type as
web_application. -/
theorem c8_recipe_sharing :
    (analyzePrompt "Create a recipe sharing app").project_name
      = "recipe_sharing" ∧
    (analyzePrompt "Create a recipe sharing app").project_type
      = "web_application" := by
  decide

/-- C9 counterexample: the claim's universally quantified example fails —
the prompt "react vue angular" contains both 'react' and 'vue', yet the
frontend resolves to ANGULAR, because 'angular' comes after 'vue' in the
table's insertion order and each later match overwrites the layer. -/
theorem c9_counterexample :
    isSubstr "react".data (pyLower "react vue angular") = true ∧
    isSubstr "vue".data (pyLower "react vue angular") = true ∧
    dictGet (analyzePrompt "react vue angular").tech_stack "frontend"
      = some TechStack.ANGULAR ∧
    TechStack.ANGULAR ≠ TechStack.VUE := by
  decide

/-- C9 as amended: when several technology keywords of the same layer
match, the layer resolves to the one latest in the table's insertion
order, independent of positions in the prompt; in particular a prompt
containing both 'react' and 'vue' but neither 'angular' nor 'flutter'
resolves its frontend to VUE. -/
theorem c9_amended_last_table_entry_wins (p : String)
    (hr : isSubstr "react".data (pyLower p) = true)
    (hv : isSubstr "vue".data (pyLower p) = true)
    (ha : isSubstr "angular".data (pyLower p) = false)
    (hf : isSubstr "flutter".data (pyLower p) = false) :
    dictGet (analyzePrompt p).tech_stack "frontend" = some TechStack.VUE := by
  have e1 : techStep (pyLower p) [] ("react", TechStack.REACT)
      = [("frontend", TechStack.REACT)] := by
    rw [techStep_matched (pyLower p) [] ("react", TechStack.REACT) "frontend"
      hr (by decide)]
    decide
  have e2 : techStep (pyLower p) [("frontend", TechStack.REACT)]
      ("vue", TechStack.VUE) = [("frontend", TechStack.VUE)] := by
    rw [techStep_matched (pyLower p) [("frontend", TechStack.REACT)]
      ("vue", TechStack.VUE) "frontend" hv (by decide)]
    decide
  have e3 : techStep (pyLower p) [("frontend", TechStack.VUE)]
      ("angular", TechStack.ANGULAR) = [("frontend", TechStack.VUE)] :=
    techStep_unmatched _ _ _ ha
  have e4 : techStep (pyLower p) [("frontend", TechStack.VUE)]
      ("flutter", TechStack.FLUTTER) = [("frontend", TechStack.VUE)] :=
    techStep_unmatched _ _ _ hf
  have hrest : ∀ kv ∈ ([ ("fastapi", TechStack.FASTAPI)
      , ("flask", TechStack.FLASK)
      , ("django", TechStack.DJANGO)
      , ("nodejs", TechStack.NODEJS)
      , ("node.js", TechStack.NODEJS)
      , ("postgresql", TechStack.POSTGRESQL)
      , ("postgres", TechStack.POSTGRESQL)
      , ("mongodb", TechStack.MONGODB)
      , ("mongo", TechStack.MONGODB)
      , ("mysql", TechStack.MYSQL)
      , ("sqlite", TechStack.SQLITE) ] : List (String × TechStack)),
      techLayer kv.2 ≠ some "frontend" := by
    decide
  have hx : dictGet (extractTechStack (pyLower p)) "frontend"
      = some TechStack.VUE := by
    unfold extractTechStack techKeywords
    rw [List.foldl_cons, e1, List.foldl_cons, e2, List.foldl_cons, e3,
      List.foldl_cons, e4,
      foldl_techStep_dictGet (pyLower p) "frontend" _ _
        (fun kv hkv => Or.inl (hrest kv hkv))]
    decide
  show dictGet (withDefaults (extractTechStack (pyLower p))) "frontend"
      = some TechStack.VUE
  rw [dictGet_withDefaults_fe, hasKey_of_dictGet_some _ _ _ hx]
  simpa using hx

/-- Witness for C9 at "react vue". -/
theorem c9_witness :
    dictGet (analyzePrompt "react vue").tech_stack "frontend"
      = some TechStack.VUE :=
  c9_amended_last_table_entry_wins "react vue" (by decide) (by decide)
    (by decide) (by decide)

/-- C10: keyword detection is bare substring containment on the
lower-cased prompt, with no word-boundary check: any prompt containing
'rapid' (which contains 'api') receives the feature tags 'backend' and
'rest_api'. -/
theorem c10_rapid_gets_api_features (p : String)
    (h : isSubstr "rapid".data (pyLower p) = true) :
    "backend" ∈ (analyzePrompt p).features ∧
    "rest_api" ∈ (analyzePrompt p).features := by
  have hapi : isSubstr "api".data (pyLower p) = true :=
    isSubstr_trans (by decide) h
  exact ⟨mem_extractFeatures _ ("api", ["backend", "rest_api"]) (by decide)
      hapi _ (by decide),
    mem_extractFeatures _ ("api", ["backend", "rest_api"]) (by decide)
      hapi _ (by decide)⟩

/-- Witness for C10 at the one-word prompt "rapid", which contains none of
the keywords as a separate word. -/
theorem c10_witness :
    "backend" ∈ (analyzePrompt "rapid").features ∧
    "rest_api" ∈ (analyzePrompt "rapid").features :=
  c10_rapid_gets_api_features "rapid" (by decide)
